import Mathlib

/-!
Shallow embedding of the attention-index backend (TypeScript) in Lean 4.

Modules embedded:
* `Trading`    — the mock trade handlers of `src/server/routers.ts`
* `Hume`       — the sentiment adapter of `src/unnamed/part_001`
* `Queue`      — the rate-limited request queue of `src/server/services/gemini.ts`
* `Gemini`     — the batch signal analyzer of `src/server/services/gemini.ts`
* `ElevenLabs` — the speech synthesis adapter of `src/server/services/elevenlabs.ts`

JavaScript numbers are embedded as `ℚ` (exact arithmetic), `Math.round`
as floor of `x + 1/2` (its JavaScript semantics for finite inputs), and
network effects as explicit oracles passed to the embedded functions.
-/

set_option autoImplicit false

namespace AttentionIndex

/-- JavaScript `Math.round`: round half toward positive infinity. -/
def jsRound (x : ℚ) : ℤ := ⌊x + 1 / 2⌋

/-- `s.includes(pat)` on JavaScript strings, embedded over character lists. -/
def strIncludes (s pat : String) : Bool := decide (pat.toList <:+: s.toList)

namespace Trading

/-- `direction: z.enum(["long", "short"])` in the market selection schema. -/
inductive Direction where
  | long
  | short
deriving DecidableEq, Repr

/-- `duration: z.enum(["30m", "1h", "3h"])` in the market selection schema. -/
inductive Duration where
  | m30
  | h1
  | h3
deriving DecidableEq, Repr

/-- The fields of `marketSelectionSchema` that the trade computation reads. -/
structure TradeInput where
  momentum : ℚ
  direction : Direction
  duration : Duration
  amount : ℚ
deriving DecidableEq, Repr

/-- The computed part of the `details` record returned by `placeTrade`. -/
structure TradeDetails where
  direction : Direction
  duration : Duration
  amount : ℚ
  estimatedReturn : ℚ
  expiresAt : ℤ
deriving DecidableEq, Repr

/-- `amount: z.number().min(1)` — the only validation zod applies to `amount`. -/
def amountAccepted (amount : ℚ) : Bool := decide (1 ≤ amount)

/-- `baseReturn` from the body of `placeTrade` (routers.ts lines 81-83). -/
def baseReturnOf (direction : Direction) (momentum : ℚ) : ℚ :=
  match direction with
  | .long => momentum * (1 / 100)
  | .short => (100 - momentum) * (1 / 100)

/-- `Math.round(estimatedReturn * 100) / 100` where
`estimatedReturn = amount * (1 + baseReturn)` (routers.ts lines 84, 99). -/
def estimatedReturnOf (direction : Direction) (momentum amount : ℚ) : ℚ :=
  (jsRound (amount * (1 + baseReturnOf direction momentum) * 100) : ℚ) / 100

/-- The duration conditional of routers.ts line 100. -/
def durationMillis (duration : Duration) : ℤ :=
  match duration with
  | .m30 => 30 * 60 * 1000
  | .h1 => 60 * 60 * 1000
  | .h3 => 3 * 60 * 60 * 1000

/-- `placeTrade`: zod validation of `amount` followed by the pure mock
computation; `now` is the value of `Date.now()` at line 100. -/
def placeTrade (now : ℤ) (input : TradeInput) : Option TradeDetails :=
  if amountAccepted input.amount then
    some
      { direction := input.direction
        duration := input.duration
        amount := input.amount
        estimatedReturn := estimatedReturnOf input.direction input.momentum input.amount
        expiresAt := now + durationMillis input.duration }
  else
    none

/-- Spec-side formula: "amount × (1 + baseReturn) rounded to 2 decimal places". -/
def specRound2 (x : ℚ) : ℚ := (jsRound (x * 100) : ℚ) / 100

end Trading

namespace Hume

/-- The `VibeAnalysis` record (part_001 lines 10-16); `all_emotions` is the
raw emotion-score object, embedded as an association list. -/
structure VibeAnalysis where
  joy : ℚ
  anxiety : ℚ
  confidence : ℚ
  dominant_emotion : String
  all_emotions : List (String × ℚ)
deriving DecidableEq, Repr

/-- The non-null values of `VibeAlert.type`. -/
inductive AlertType where
  | volatility_alert
  | momentum_pump
deriving DecidableEq, Repr

/-- The `VibeAlert` record (part_001 lines 18-22); `type` is nullable. -/
structure VibeAlert where
  type : Option AlertType
  intensity : ℚ
  message : String
deriving DecidableEq, Repr

/-- `generateVibeAlert` (part_001 lines 181-203). -/
def generateVibeAlert (vibe : VibeAnalysis) : VibeAlert :=
  if vibe.anxiety > 70 then
    { type := some .volatility_alert
      intensity := vibe.anxiety
      message := "High volatility detected (" ++ toString vibe.anxiety ++
        "% anxiety). Exercise caution." }
  else if vibe.joy > 70 then
    { type := some .momentum_pump
      intensity := vibe.joy
      message := "Strong momentum detected (" ++ toString vibe.joy ++
        "% excitement). Potential pump incoming." }
  else
    { type := none, intensity := 0, message := "Market sentiment is neutral." }

/-- The positive/excitement keyword list of `analyzeTextVibeLocal`. -/
def positiveKeywords : List String :=
  ["moon", "pump", "bullish", "breaking", "huge", "massive", "rocket",
   "surge", "soar", "boom", "exciting", "amazing", "incredible", "ipo",
   "launch", "announce", "breakthrough", "revolutionary", "viral", "trending"]

/-- The negative/anxiety keyword list of `analyzeTextVibeLocal`. -/
def negativeKeywords : List String :=
  ["crash", "dump", "bearish", "warning", "risk", "fear", "concern",
   "drop", "fall", "decline", "worry", "uncertain", "volatile", "danger",
   "collapse", "panic", "sell", "loss", "scam", "fraud"]

/-- `analyzeTextVibeLocal` (part_001 lines 69-160).  The four calls to
`Math.random()` are passed in scaled, as in the source expressions:
`r1` for `Math.random() * 20`, `r2` for `Math.random() * 15`,
`r3` for `Math.random() * 30`, `r4` for `Math.random() * 40`. -/
def analyzeTextVibeLocal (text : String) (r1 r2 r3 r4 : ℚ) : VibeAnalysis :=
  let lowerText := text.toLower
  let positiveCount : ℕ := positiveKeywords.countP (fun kw => strIncludes lowerText kw)
  let negativeCount : ℕ := negativeKeywords.countP (fun kw => strIncludes lowerText kw)
  let baseJoy : ℚ := min 100 (30 + positiveCount * 15 + r1)
  let baseAnxiety : ℚ := min 100 (20 + negativeCount * 15 + r2)
  let total := baseJoy + baseAnxiety
  let joy := if total > 150 then baseJoy / total * 130 else baseJoy
  let anxiety := if total > 150 then baseAnxiety / total * 130 else baseAnxiety
  let dominant :=
    if joy > anxiety + 20 then "excitement"
    else if anxiety > joy + 20 then "fear"
    else if joy > 60 ∧ anxiety > 40 then "anticipation"
    else "neutral"
  { joy := (jsRound joy : ℚ)
    anxiety := (jsRound anxiety : ℚ)
    confidence := (jsRound (60 + r3) : ℚ)
    dominant_emotion := dominant
    all_emotions :=
      [("joy", (jsRound joy : ℚ)),
       ("anxiety", (jsRound anxiety : ℚ)),
       ("anticipation", (jsRound ((joy + anxiety) / 2) : ℚ)),
       ("surprise", (jsRound (r4 + 20) : ℚ)),
       ("neutral", (jsRound (100 - (joy + anxiety) / 2) : ℚ))] }

/-- The parts of the remote response body that `parseHumeResponse` reads. -/
structure HumeData where
  emotions : Option (List (String × ℚ))
  confidence : Option ℚ
  dominant_emotion : Option String
deriving Repr

/-- JavaScript `x || d` on an optional numeric property: the default is
used when the property is missing or `0` (zero is falsy). -/
def jsOrNum (v : Option ℚ) (d : ℚ) : ℚ :=
  match v with
  | none => d
  | some x => if x = 0 then d else x

/-- JavaScript `x || d` on an optional string property (empty string is falsy). -/
def jsOrStr (v : Option String) (d : String) : String :=
  match v with
  | none => d
  | some x => if x = "" then d else x

/-- `parseHumeResponse` (part_001 lines 162-176), success branch; nothing in
its body can throw in this embedding, so the catch branch is unreachable. -/
def parseHumeResponse (data : HumeData) : VibeAnalysis :=
  let emotions := data.emotions.getD []
  { joy := (jsRound (jsOrNum (emotions.lookup "joy") (1 / 2) * 100) : ℚ)
    anxiety := (jsRound (jsOrNum (emotions.lookup "anxiety") (3 / 10) * 100) : ℚ)
    confidence := (jsRound (jsOrNum data.confidence (7 / 10) * 100) : ℚ)
    dominant_emotion := jsOrStr data.dominant_emotion "neutral"
    all_emotions := emotions }

/-- Outcome of the remote EVI call in `analyzeTextVibe`: a non-ok response
or a thrown fetch both select the local fallback. -/
inductive RemoteOutcome where
  | failure
  | success (data : HumeData)

/-- `analyzeTextVibe` (part_001 lines 31-63) with the network call made
explicit: on failure it falls back to `analyzeTextVibeLocal`. -/
def analyzeTextVibe (outcome : RemoteOutcome) (text : String)
    (r1 r2 r3 r4 : ℚ) : VibeAnalysis :=
  match outcome with
  | .failure => analyzeTextVibeLocal text r1 r2 r3 r4
  | .success data => parseHumeResponse data

end Hume

namespace Queue

/-- `MIN_REQUEST_INTERVAL_MS` (gemini.ts line 36): 15 RPM = 1 request / 4 s. -/
def MIN_REQUEST_INTERVAL_MS : ℕ := 4000

/-- One pass of the `processQueue` drain loop over a FIFO backlog.  Each
task is a label paired with its running duration; `now` is the clock when
the loop iteration starts and `last` the stored `lastRequestTime`.  The
loop waits `MIN_REQUEST_INTERVAL_MS - (now - last)` when that is positive,
so the dispatch instant is `max now (last + MIN_REQUEST_INTERVAL_MS)`;
it then records the dispatch time and awaits the task.  The result pairs
each label with its dispatch time, in dequeue order. -/
def drainSchedule {α : Type} (now last : ℕ) : List (α × ℕ) → List (α × ℕ)
  | [] => []
  | (label, dur) :: rest =>
      let dispatch := max now (last + MIN_REQUEST_INTERVAL_MS)
      (label, dispatch) :: drainSchedule (dispatch + dur) dispatch rest

/-- The wrapper that `queueRequest` pushes onto `requestQueue`: it runs the
task, resolves the returned promise with the result or rejects it with the
thrown error, and — because of the try/catch — itself never throws.  The
first component is the wrapper's own outcome, the second the settlement
of the promise returned to the submitter. -/
def wrapTask {ε α : Type} (t : Except ε α) : Except ε Unit × Except ε α :=
  match t with
  | .ok a => (Except.ok (), Except.ok a)
  | .error e => (Except.ok (), Except.error e)

/-- The drain loop's control flow around `await request()`: a wrapper that
completed normally lets the loop continue to the next queued wrapper, while
a wrapper that threw would propagate out of `processQueue` and abort the
drain, losing the remaining backlog. -/
def drainSettlements {ε α : Type} : List (Except ε Unit × Except ε α) → List (Except ε α)
  | [] => []
  | (wrapperOutcome, settlement) :: rest =>
      match wrapperOutcome with
      | .ok _ => settlement :: drainSettlements rest
      | .error _ => []

end Queue

namespace Gemini

/-- The `RawSignal` input record (gemini.ts lines 23-33). -/
structure RawSignal where
  id : String
  source : String
  content : String
  timestamp : ℤ
deriving DecidableEq, Repr

/-- The `SignalAnalysis` record (gemini.ts lines 12-21). -/
structure SignalAnalysis where
  core_event : String
  main_actors : List String
  hype_summary : String
  is_bot_noise : Bool
  confidence : ℤ
  recommended_duration : String
  rationale : String
deriving DecidableEq, Repr

/-- `createFallbackAnalysis` (gemini.ts lines 182-192). -/
def createFallbackAnalysis (signal : RawSignal) : SignalAnalysis :=
  { core_event := "Analysis unavailable"
    main_actors := []
    hype_summary := signal.content.take 100
    is_bot_noise := false
    confidence := 0
    recommended_duration := "1H"
    rationale := "Default recommendation - analysis pending" }

/-- A JavaScript `Map<string, SignalAnalysis>` as an association list in
insertion order. -/
def JsMap : Type := List (String × SignalAnalysis)

/-- `Map.prototype.set`: replace the value at an existing key in place,
otherwise append the new entry. -/
def mapSet : JsMap → String → SignalAnalysis → JsMap
  | [], k, v => [(k, v)]
  | (k', v') :: rest, k, v =>
      if k' = k then (k, v) :: rest else (k', v') :: mapSet rest k v

/-- `Map.prototype.get`: the value stored at the key, if any. -/
def mapGet : JsMap → String → Option SignalAnalysis
  | [], _ => none
  | (k', v) :: rest, k => if k' = k then some v else mapGet rest k

/-- Keys of the map, in insertion order. -/
def mapKeys (m : JsMap) : List String := m.map Prod.fst

/-- `BATCH_SIZE` (gemini.ts line 110). -/
def BATCH_SIZE : ℕ := 10

/-- The network per chunk: `none` when the queued request throws (network
error, non-2xx status, missing or non-parseable body), `some arr` when it
yields a parsed `SignalAnalysis[]` — possibly shorter than the batch. -/
def ChunkOracle : Type := ℕ → Option (List SignalAnalysis)

/-- One iteration of the chunk loop of `analyzeBatchSignals`
(gemini.ts lines 129-176): on success, entries are zipped positionally
back to signal ids with a per-position fallback for missing entries; on
failure, every signal of the chunk receives the fallback. -/
def processChunk (res : Option (List SignalAnalysis)) (batch : List RawSignal)
    (acc : JsMap) : JsMap :=
  match res with
  | none =>
      batch.foldl (fun m s => mapSet m s.id (createFallbackAnalysis s)) acc
  | some analyses =>
      batch.enum.foldl
        (fun m p => mapSet m p.2.id ((analyses[p.1]?).getD (createFallbackAnalysis p.2)))
        acc

/-- The `for (let i = 0; i < signals.length; i += BATCH_SIZE)` loop of
`analyzeBatchSignals`, with `c` the chunk index `i / BATCH_SIZE`. -/
def batchLoop (oracle : ChunkOracle) (c : ℕ) (rest : List RawSignal)
    (acc : JsMap) : JsMap :=
  match rest with
  | [] => acc
  | s :: rest' =>
      batchLoop oracle (c + 1) ((s :: rest').drop BATCH_SIZE)
        (processChunk (oracle c) ((s :: rest').take BATCH_SIZE) acc)
termination_by rest.length
decreasing_by simp [BATCH_SIZE]; omega

/-- `analyzeBatchSignals` (gemini.ts lines 104-180). -/
def analyzeBatchSignals (oracle : ChunkOracle) (signals : List RawSignal) : JsMap :=
  batchLoop oracle 0 signals []

/-- The `(id, analysis)` assignments one chunk performs, in order. -/
def chunkAssignments (res : Option (List SignalAnalysis))
    (batch : List RawSignal) : List (String × SignalAnalysis) :=
  match res with
  | none => batch.map (fun s => (s.id, createFallbackAnalysis s))
  | some analyses =>
      batch.enum.map
        (fun p => (p.2.id, (analyses[p.1]?).getD (createFallbackAnalysis p.2)))

/-- The flat sequence of `results.set` calls `analyzeBatchSignals` performs,
one per input position, in input order. -/
def flatLoop (oracle : ChunkOracle) (c : ℕ) (rest : List RawSignal) :
    List (String × SignalAnalysis) :=
  match rest with
  | [] => []
  | s :: rest' =>
      chunkAssignments (oracle c) ((s :: rest').take BATCH_SIZE) ++
        flatLoop oracle (c + 1) ((s :: rest').drop BATCH_SIZE)
termination_by rest.length
decreasing_by simp [BATCH_SIZE]; omega

/-- All assignments of a run of `analyzeBatchSignals`, in execution order. -/
def assignments (oracle : ChunkOracle) (signals : List RawSignal) :
    List (String × SignalAnalysis) :=
  flatLoop oracle 0 signals

/-- Folding a list of assignments into a map, left to right. -/
def mapSetList (acc : JsMap) (ps : List (String × SignalAnalysis)) : JsMap :=
  ps.foldl (fun m p => mapSet m p.1 p.2) acc

/-- The value written by the last assignment with the given key, if any. -/
def lastVal (ps : List (String × SignalAnalysis)) (k : String) :
    Option SignalAnalysis :=
  match ps with
  | [] => none
  | p :: rest =>
      match lastVal rest k with
      | some v => some v
      | none => if p.1 = k then some p.2 else none

end Gemini

namespace ElevenLabs

/-- The fields of a JavaScript `Error` that `textToSpeech` inspects. -/
structure JsError where
  message : String
  name : String
deriving DecidableEq, Repr

/-- The `isNetworkError` classification inside the catch block of
`textToSpeech` (elevenlabs.ts lines 351-354). -/
def isNetworkError (e : JsError) : Bool :=
  strIncludes e.message "fetch failed" || strIncludes e.message "ECONNRESET" ||
    strIncludes e.message "network" || e.name == "AbortError"

/-- `MAX_RETRIES` (elevenlabs.ts line 203). -/
def MAX_RETRIES : ℕ := 3

/-- `RETRY_DELAY_MS` (elevenlabs.ts line 204). -/
def RETRY_DELAY_MS : ℕ := 1000

/-- `MODELS.FLASH`. -/
def MODEL_FLASH : String := "eleven_flash_v2_5"

/-- `MODELS.TURBO`. -/
def MODEL_TURBO : String := "eleven_turbo_v2_5"

/-- What one `fetch` attempt comes back with: a successful audio body, a
non-ok response with its status, or a thrown error (network failure,
connection reset, or the 30-second timeout abort). -/
inductive AttemptResult where
  | ok (audioBase64 : String)
  | httpFail (status : ℕ)
  | exn (e : JsError)
deriving DecidableEq, Repr

/-- The network as seen by successive fetch attempts. -/
def FetchOracle : Type := ℕ → AttemptResult

/-- A run of `textToSpeech`: the model id and the sleep that preceded each
attempt, in order, and the final outcome. -/
structure TtsTrace where
  attempts : List (String × ℕ)
  result : Except JsError String
deriving Repr

/-- `textToSpeech` (elevenlabs.ts lines 275-366).  `idx` numbers the fetch
attempts so the oracle can answer each one; `delayBefore` is the sleep the
caller performed before this attempt (0 for the first call, `RETRY_DELAY_MS
× (retryCount + 1)` for a retry).  On a non-ok response with status 400
while on the flash model it falls back once to turbo; a thrown error
classified as a network error is retried while `retryCount < MAX_RETRIES`;
anything else is a hard failure surfaced to the caller. -/
def textToSpeech (env : FetchOracle) (useFlash : Bool) (retryCount : ℕ)
    (idx : ℕ) (delayBefore : ℕ) : TtsTrace :=
  let modelId := if useFlash then MODEL_FLASH else MODEL_TURBO
  match env idx with
  | .ok audio => ⟨[(modelId, delayBefore)], .ok audio⟩
  | .httpFail status =>
      if h : useFlash = true ∧ status = 400 then
        let t := textToSpeech env false retryCount (idx + 1) 0
        ⟨(modelId, delayBefore) :: t.attempts, t.result⟩
      else
        ⟨[(modelId, delayBefore)],
          .error ⟨"ElevenLabs API error: " ++ toString status, "Error"⟩⟩
  | .exn e =>
      if h : isNetworkError e = true ∧ retryCount < MAX_RETRIES then
        let t := textToSpeech env useFlash (retryCount + 1) (idx + 1)
          (RETRY_DELAY_MS * (retryCount + 1))
        ⟨(modelId, delayBefore) :: t.attempts, t.result⟩
      else
        ⟨[(modelId, delayBefore)], .error e⟩
termination_by (if useFlash then 1 else 0) + (MAX_RETRIES - retryCount)
decreasing_by
  · simp [h.1]
  · simp only [MAX_RETRIES] at h ⊢
    omega

end ElevenLabs

/-!
## Theorems
-/

/-- C6: for every accepted `placeTrade` request, `estimatedReturn` equals
`amount × (1 + baseReturn)` rounded to 2 decimal places, where `baseReturn`
is `momentum × 0.01` for a long and `(100 − momentum) × 0.01` for a short;
in particular momentum 94 / long / amount 100 yields 194.00 and
momentum 65 / short / amount 50 yields 67.50. -/
theorem placeTrade_estimatedReturn_spec :
    (∀ (now : ℤ) (input : Trading.TradeInput),
        Trading.amountAccepted input.amount = true →
        (Trading.placeTrade now input).map Trading.TradeDetails.estimatedReturn =
          some (Trading.specRound2
            (input.amount * (1 + Trading.baseReturnOf input.direction input.momentum))))
    ∧ (Trading.placeTrade 0 ⟨94, .long, .h1, 100⟩).map
        Trading.TradeDetails.estimatedReturn = some 194
    ∧ (Trading.placeTrade 0 ⟨65, .short, .m30, 50⟩).map
        Trading.TradeDetails.estimatedReturn = some (135 / 2) := by
  refine ⟨fun now input h => ?_, ?_, ?_⟩
  · simp [Trading.placeTrade, h, Trading.estimatedReturnOf, Trading.specRound2]
  · norm_num [Trading.placeTrade, Trading.amountAccepted, Trading.estimatedReturnOf,
      Trading.baseReturnOf, jsRound]
  · norm_num [Trading.placeTrade, Trading.amountAccepted, Trading.estimatedReturnOf,
      Trading.baseReturnOf, jsRound]

/-- Witness for C6: the first conjunct instantiated at momentum 50, long,
amount 10, with its acceptance hypothesis discharged by `decide`. -/
theorem placeTrade_estimatedReturn_spec_witness :
    (Trading.placeTrade 3 ⟨50, .long, .h1, 10⟩).map
      Trading.TradeDetails.estimatedReturn =
    some (Trading.specRound2
      ((10 : ℚ) * (1 + Trading.baseReturnOf Trading.Direction.long 50))) :=
  placeTrade_estimatedReturn_spec.1 3 ⟨50, .long, .h1, 10⟩ (by decide)

/-- C7: for every accepted `placeTrade` request issued at time `now`, the
returned `expiresAt` is `now` plus 1,800,000 ms for "30m", 3,600,000 ms
for "1h", and 10,800,000 ms for "3h". -/
theorem placeTrade_expiresAt_spec :
    ∀ (now : ℤ) (input : Trading.TradeInput),
      Trading.amountAccepted input.amount = true →
      (Trading.placeTrade now input).map Trading.TradeDetails.expiresAt =
        some (now +
          (match input.duration with
            | .m30 => 1800000
            | .h1 => 3600000
            | .h3 => 10800000)) := by
  intro now input h
  cases hd : input.duration <;>
    simp [Trading.placeTrade, h, Trading.durationMillis, hd]

/-- Witness for C7: the theorem instantiated at a concrete "30m" trade. -/
theorem placeTrade_expiresAt_spec_witness :
    (Trading.placeTrade 7 ⟨50, .long, .m30, 10⟩).map
      Trading.TradeDetails.expiresAt = some (7 + 1800000) :=
  placeTrade_expiresAt_spec 7 ⟨50, .long, .m30, 10⟩ (by decide)

/-- C8 counterexample: `amount = 1/2` is strictly positive, yet zod's
`min(1)` bound rejects the request, so "accepts every request whose amount
is strictly positive" is false of the code. -/
theorem placeTrade_positive_amount_counterexample :
    (0 : ℚ) < 1 / 2 ∧
      Trading.placeTrade 0 ⟨50, .long, .h1, 1 / 2⟩ = none := by
  constructor
  · norm_num
  · norm_num [Trading.placeTrade, Trading.amountAccepted]

/-- C8 amended: `placeTrade` accepts a request (given valid direction and
duration enum values) exactly when `amount ≥ 1` — the zod `min(1)` bound —
and this is the only validation applied to `amount`. -/
theorem placeTrade_amount_validation :
    ∀ (now : ℤ) (input : Trading.TradeInput),
      (Trading.placeTrade now input).isSome ↔ 1 ≤ input.amount := by
  intro now input
  unfold Trading.placeTrade
  by_cases h : 1 ≤ input.amount
  · simp [Trading.amountAccepted, h]
  · simp [Trading.amountAccepted, h]

/-- C5 counterexample: the record with joy 0 and anxiety 72 satisfies
neither "anxiety > 75" nor "joy > 80", so the claim as stated returns no
alert, but the code (thresholds 70/70) returns the volatility alert. -/
theorem generateVibeAlert_thresholds_counterexample :
    ((72 : ℚ) ≤ 75 ∧ (0 : ℚ) ≤ 80) ∧
      (Hume.generateVibeAlert ⟨0, 72, 50, "fear", []⟩).type =
        some Hume.AlertType.volatility_alert := by
  refine ⟨by norm_num, ?_⟩
  rfl

/-- C5 amended: `generateVibeAlert` returns the volatility alert exactly
when anxiety > 70 regardless of joy, else the momentum alert exactly when
joy > 70, else no alert; the intensity is the triggering score (anxiety
for volatility, joy for momentum, 0 otherwise). -/
theorem generateVibeAlert_classification :
    ∀ vibe : Hume.VibeAnalysis,
      ((Hume.generateVibeAlert vibe).type = some .volatility_alert ↔
        70 < vibe.anxiety)
      ∧ ((Hume.generateVibeAlert vibe).type = some .momentum_pump ↔
        vibe.anxiety ≤ 70 ∧ 70 < vibe.joy)
      ∧ ((Hume.generateVibeAlert vibe).type = none ↔
        vibe.anxiety ≤ 70 ∧ vibe.joy ≤ 70)
      ∧ (70 < vibe.anxiety →
        (Hume.generateVibeAlert vibe).intensity = vibe.anxiety)
      ∧ (vibe.anxiety ≤ 70 → 70 < vibe.joy →
        (Hume.generateVibeAlert vibe).intensity = vibe.joy)
      ∧ (vibe.anxiety ≤ 70 → vibe.joy ≤ 70 →
        (Hume.generateVibeAlert vibe).intensity = 0) := by
  intro vibe
  unfold Hume.generateVibeAlert
  split_ifs with h1 h2 <;> simp_all

/-- Witness for C5 amended: the momentum-alert case at joy 75, anxiety 10. -/
theorem generateVibeAlert_classification_witness :
    (Hume.generateVibeAlert ⟨75, 10, 0, "x", []⟩).intensity = 75 :=
  (generateVibeAlert_classification ⟨75, 10, 0, "x", []⟩).2.2.2.2.1
    (by decide) (by decide)

/-- `Math.round` maps a nonnegative rational to a nonnegative integer. -/
theorem jsRound_nonneg {x : ℚ} (h : 0 ≤ x) : (0 : ℤ) ≤ jsRound x := by
  unfold jsRound
  exact Int.floor_nonneg.mpr (by linarith)

/-- `Math.round` does not exceed an integer bound on its argument. -/
theorem jsRound_le {x : ℚ} {n : ℤ} (h : x ≤ (n : ℚ)) : jsRound x ≤ n := by
  unfold jsRound
  have hlt : x + 1 / 2 < ((n + 1 : ℤ) : ℚ) := by push_cast; linarith
  have := Int.floor_lt.mpr hlt
  omega

/-- A successful association-list lookup returns a stored pair. -/
theorem lookup_mem_pair {l : List (String × ℚ)} {k : String} {v : ℚ}
    (h : l.lookup k = some v) : (k, v) ∈ l := by
  induction l with
  | nil => simp [List.lookup] at h
  | cons p rest ih =>
    match p with
    | (k', v') =>
      simp only [List.lookup] at h
      cases hbeq : (k == k') with
      | true =>
        rw [hbeq] at h
        cases h
        exact (eq_of_beq hbeq) ▸ List.mem_cons_self _ _
      | false =>
        rw [hbeq] at h
        exact List.mem_cons_of_mem _ (ih h)

/-- The renormalization step of `analyzeTextVibeLocal` keeps a score that
starts in `[0, 100]` inside `[0, 100]`: when the total exceeds 150 the
score is scaled to `x / total * 130 < 130 · 100 / 150 < 100`. -/
theorem normalized_bounds (x total : ℚ) (hx0 : 0 ≤ x) (hx : x ≤ 100)
    (_htot : 0 ≤ total) :
    0 ≤ (if total > 150 then x / total * 130 else x)
    ∧ (if total > 150 then x / total * 130 else x) ≤ 100 := by
  split_ifs with h
  · have hpos : (0 : ℚ) < total := by linarith
    constructor
    · positivity
    · rw [div_mul_eq_mul_div, div_le_iff₀ hpos]
      nlinarith
  · exact ⟨hx0, hx⟩

/-- The base scores of `analyzeTextVibeLocal` lie in `[0, 100]` for any
keyword counts and nonnegative jitter. -/
theorem local_base_bounds (pc nc : ℕ) (r1 r2 : ℚ) (h1 : 0 ≤ r1) (h2 : 0 ≤ r2) :
    (0 ≤ min (100 : ℚ) (30 + (pc : ℚ) * 15 + r1)
      ∧ min (100 : ℚ) (30 + (pc : ℚ) * 15 + r1) ≤ 100)
    ∧ (0 ≤ min (100 : ℚ) (20 + (nc : ℚ) * 15 + r2)
      ∧ min (100 : ℚ) (20 + (nc : ℚ) * 15 + r2) ≤ 100) := by
  have hpc : (0 : ℚ) ≤ (pc : ℚ) * 15 := by positivity
  have hnc : (0 : ℚ) ≤ (nc : ℚ) * 15 := by positivity
  exact ⟨⟨le_min (by norm_num) (by linarith), min_le_left _ _⟩,
    ⟨le_min (by norm_num) (by linarith), min_le_left _ _⟩⟩

/-- C9 counterexample: a remote response whose `emotions.joy` is `2` makes
the remote parsing path of `analyzeTextVibe` return `joy = 200`, violating
`joy ≤ 100` — so the claim is false for the remote path in general. -/
theorem analyzeTextVibe_bounds_counterexample :
    (Hume.analyzeTextVibe (.success ⟨some [("joy", 2)], none, none⟩)
      "" 0 0 0 0).joy = 200 ∧
    ¬ (Hume.analyzeTextVibe (.success ⟨some [("joy", 2)], none, none⟩)
      "" 0 0 0 0).joy ≤ 100 := by
  have h : (Hume.analyzeTextVibe (.success ⟨some [("joy", 2)], none, none⟩)
      "" 0 0 0 0).joy = 200 := by
    norm_num [Hume.analyzeTextVibe, Hume.parseHumeResponse, Hume.jsOrNum,
      List.lookup, jsRound]
  exact ⟨h, by rw [h]; norm_num⟩

/-- C9 amended: every `VibeAnalysis` from the local fallback path satisfies
`0 ≤ joy ≤ 100` and `0 ≤ anxiety ≤ 100` for every nonnegative jitter; the
remote parsing path satisfies those bounds provided every remote emotion
score lies in `[0, 1]`; and `generateVibeAlert` is total — on every record
it returns an alert whose intensity is the anxiety, the joy, or `0`. -/
theorem analyzeTextVibe_bounds :
    (∀ (text : String) (r1 r2 r3 r4 : ℚ), 0 ≤ r1 → 0 ≤ r2 →
      0 ≤ (Hume.analyzeTextVibe .failure text r1 r2 r3 r4).joy
      ∧ (Hume.analyzeTextVibe .failure text r1 r2 r3 r4).joy ≤ 100
      ∧ 0 ≤ (Hume.analyzeTextVibe .failure text r1 r2 r3 r4).anxiety
      ∧ (Hume.analyzeTextVibe .failure text r1 r2 r3 r4).anxiety ≤ 100)
    ∧ (∀ (data : Hume.HumeData) (text : String) (r1 r2 r3 r4 : ℚ),
      (∀ p ∈ data.emotions.getD [], 0 ≤ p.2 ∧ p.2 ≤ 1) →
      0 ≤ (Hume.analyzeTextVibe (.success data) text r1 r2 r3 r4).joy
      ∧ (Hume.analyzeTextVibe (.success data) text r1 r2 r3 r4).joy ≤ 100
      ∧ 0 ≤ (Hume.analyzeTextVibe (.success data) text r1 r2 r3 r4).anxiety
      ∧ (Hume.analyzeTextVibe (.success data) text r1 r2 r3 r4).anxiety ≤ 100)
    ∧ (∀ vibe : Hume.VibeAnalysis,
      (Hume.generateVibeAlert vibe).intensity = vibe.anxiety
      ∨ (Hume.generateVibeAlert vibe).intensity = vibe.joy
      ∨ (Hume.generateVibeAlert vibe).intensity = 0) := by
  refine ⟨?_, ?_, ?_⟩
  · intro text r1 r2 r3 r4 h1 h2
    unfold Hume.analyzeTextVibe Hume.analyzeTextVibeLocal
    simp only
    obtain ⟨⟨hA0, hA1⟩, ⟨hB0, hB1⟩⟩ :=
      local_base_bounds
        (Hume.positiveKeywords.countP fun kw => strIncludes text.toLower kw)
        (Hume.negativeKeywords.countP fun kw => strIncludes text.toLower kw)
        r1 r2 h1 h2
    have hJ := normalized_bounds _ _ hA0 hA1 (add_nonneg hA0 hB0)
    have hX := normalized_bounds _ _ hB0 hB1 (add_nonneg hA0 hB0)
    refine ⟨?_, ?_, ?_, ?_⟩
    · exact_mod_cast jsRound_nonneg hJ.1
    · exact_mod_cast jsRound_le (n := 100) (by exact_mod_cast hJ.2)
    · exact_mod_cast jsRound_nonneg hX.1
    · exact_mod_cast jsRound_le (n := 100) (by exact_mod_cast hX.2)
  · intro data text r1 r2 r3 r4 hemo
    unfold Hume.analyzeTextVibe Hume.parseHumeResponse
    simp only
    have key : ∀ (k : String) (d : ℚ), 0 ≤ d → d ≤ 1 →
        0 ≤ Hume.jsOrNum ((data.emotions.getD []).lookup k) d
        ∧ Hume.jsOrNum ((data.emotions.getD []).lookup k) d ≤ 1 := by
      intro k d hd0 hd1
      cases hlk : (data.emotions.getD []).lookup k with
      | none =>
        simp only [Hume.jsOrNum]
        exact ⟨hd0, hd1⟩
      | some x =>
        have hx := hemo (k, x) (lookup_mem_pair hlk)
        simp only [Hume.jsOrNum]
        split_ifs
        · exact ⟨hd0, hd1⟩
        · exact hx
    have hj := key "joy" (1 / 2) (by norm_num) (by norm_num)
    have ha := key "anxiety" (3 / 10) (by norm_num) (by norm_num)
    refine ⟨?_, ?_, ?_, ?_⟩
    · exact_mod_cast jsRound_nonneg (by nlinarith [hj.1, hj.2])
    · exact_mod_cast jsRound_le (n := 100) (by push_cast; nlinarith [hj.1, hj.2])
    · exact_mod_cast jsRound_nonneg (by nlinarith [ha.1, ha.2])
    · exact_mod_cast jsRound_le (n := 100) (by push_cast; nlinarith [ha.1, ha.2])
  · intro vibe
    unfold Hume.generateVibeAlert
    split_ifs <;> simp

/-- Witness for C9 amended: the local path at empty text and zero jitter,
with both nonnegativity hypotheses discharged by `le_rfl`. -/
theorem analyzeTextVibe_bounds_witness :
    0 ≤ (Hume.analyzeTextVibe .failure "" 0 0 0 0).joy
    ∧ (Hume.analyzeTextVibe .failure "" 0 0 0 0).joy ≤ 100
    ∧ 0 ≤ (Hume.analyzeTextVibe .failure "" 0 0 0 0).anxiety
    ∧ (Hume.analyzeTextVibe .failure "" 0 0 0 0).anxiety ≤ 100 :=
  analyzeTextVibe_bounds.1 "" 0 0 0 0 le_rfl le_rfl

/-- The first dispatch of a drain pass happens no earlier than
`lastRequestTime + MIN_REQUEST_INTERVAL_MS`. -/
theorem drainSchedule_head_ge {α : Type} (now last : ℕ) (tasks : List (α × ℕ)) :
    ∀ p ∈ (Queue.drainSchedule now last tasks).head?,
      last + Queue.MIN_REQUEST_INTERVAL_MS ≤ p.2 := by
  cases tasks with
  | nil => simp [Queue.drainSchedule]
  | cons t rest =>
    obtain ⟨label, dur⟩ := t
    simp [Queue.drainSchedule]

/-- Consecutive dispatch times of a drain pass are at least
`MIN_REQUEST_INTERVAL_MS` apart. -/
theorem drainSchedule_chain {α : Type} :
    ∀ (tasks : List (α × ℕ)) (now last : ℕ),
      List.Chain' (fun a b => a.2 + Queue.MIN_REQUEST_INTERVAL_MS ≤ b.2)
        (Queue.drainSchedule now last tasks) := by
  intro tasks
  induction tasks with
  | nil => intro now last; simp [Queue.drainSchedule]
  | cons t rest ih =>
    intro now last
    obtain ⟨label, dur⟩ := t
    simp only [Queue.drainSchedule]
    refine List.chain'_cons'.mpr ⟨?_, ih _ _⟩
    intro y hy
    exact drainSchedule_head_ge _ _ rest y hy

/-- A drain pass dispatches exactly the queued tasks, in FIFO order. -/
theorem drainSchedule_labels {α : Type} :
    ∀ (tasks : List (α × ℕ)) (now last : ℕ),
      (Queue.drainSchedule now last tasks).map Prod.fst = tasks.map Prod.fst := by
  intro tasks
  induction tasks with
  | nil => intro now last; simp [Queue.drainSchedule]
  | cons t rest ih =>
    intro now last
    obtain ⟨label, dur⟩ := t
    simp only [Queue.drainSchedule, List.map_cons]
    exact congrArg _ (ih _ _)

/-- C2: tasks queued in order 1..N begin executing in exactly that order,
and any two consecutive dispatch instants are at least the configured
minimum interval (4000 ms) apart, for every arrival clock, every stored
last-dispatch time, and every profile of task durations. -/
theorem processQueue_fifo_spacing :
    ∀ (α : Type) (tasks : List (α × ℕ)) (now last : ℕ),
      (Queue.drainSchedule now last tasks).map Prod.fst = tasks.map Prod.fst
      ∧ Queue.MIN_REQUEST_INTERVAL_MS = 4000
      ∧ List.Chain' (fun a b => a.2 + Queue.MIN_REQUEST_INTERVAL_MS ≤ b.2)
          (Queue.drainSchedule now last tasks) :=
  fun _ tasks now last =>
    ⟨drainSchedule_labels tasks now last, rfl, drainSchedule_chain tasks now last⟩

/-- C3: the promise returned by `queueRequest` settles with exactly the
task's own outcome — resolved with its value on success, rejected with its
error on a throw — and because the pushed wrapper never throws, a failing
task never stops the drain loop: every queued task is still dispatched
and settled. -/
theorem queueRequest_settlement :
    ∀ (ε α : Type) (tasks : List (Except ε α)),
      Queue.drainSettlements (tasks.map Queue.wrapTask) = tasks := by
  intro ε α tasks
  induction tasks with
  | nil => rfl
  | cons t rest ih =>
    cases t <;> simp [Queue.wrapTask, Queue.drainSettlements, ih]

/-- C4: speech synthesis retries a classified network failure at most
`MAX_RETRIES = 3` times — never more, on any oracle — delaying the k-th
retry by `RETRY_DELAY_MS × k`; after the retries are exhausted the failure
surfaces to the caller.  On a status-400 response while on the flash model
it falls back exactly once to the turbo model instead of retrying flash,
and a second client error is a hard failure. -/
theorem textToSpeech_retry_policy :
    (∀ (env : ElevenLabs.FetchOracle) (f : Bool) (r i d : ℕ),
        (ElevenLabs.textToSpeech env f r i d).attempts.length ≤
          1 + (ElevenLabs.MAX_RETRIES - r) + (if f then 1 else 0))
    ∧ (∀ (env : ElevenLabs.FetchOracle) (e : ElevenLabs.JsError),
        ElevenLabs.isNetworkError e = true →
        (∀ i, i < 4 → env i = .exn e) →
        ElevenLabs.textToSpeech env true 0 0 0 =
          ⟨[(ElevenLabs.MODEL_FLASH, 0), (ElevenLabs.MODEL_FLASH, 1000),
            (ElevenLabs.MODEL_FLASH, 2000), (ElevenLabs.MODEL_FLASH, 3000)],
            .error e⟩)
    ∧ (∀ env : ElevenLabs.FetchOracle,
        env 0 = .httpFail 400 → env 1 = .httpFail 400 →
        ElevenLabs.textToSpeech env true 0 0 0 =
          ⟨[(ElevenLabs.MODEL_FLASH, 0), (ElevenLabs.MODEL_TURBO, 0)],
            .error ⟨"ElevenLabs API error: " ++ toString 400, "Error"⟩⟩) := by
  refine ⟨?_, ?_, ?_⟩
  · intro env f r i d
    refine ElevenLabs.textToSpeech.induct env
      (fun f r i d => (ElevenLabs.textToSpeech env f r i d).attempts.length ≤
        1 + (ElevenLabs.MAX_RETRIES - r) + (if f then 1 else 0))
      ?_ ?_ ?_ ?_ ?_ f r i d
    · intro f r i d audio heq
      rw [ElevenLabs.textToSpeech.eq_def, heq]
      dsimp only
      split_ifs <;> simp
    · intro f r i d status heq h ih
      obtain ⟨hf, hs⟩ := h
      subst hf
      subst hs
      rw [ElevenLabs.textToSpeech.eq_def, heq]
      dsimp only
      rw [dif_pos ⟨rfl, rfl⟩]
      simp only [List.length_cons]
      simp at ih ⊢
      omega
    · intro f r i d status heq h
      rw [ElevenLabs.textToSpeech.eq_def, heq]
      dsimp only
      rw [dif_neg h]
      simp only [List.length_cons, List.length_nil]
      split_ifs <;> omega
    · intro f r i d e heq h ih
      rw [ElevenLabs.textToSpeech.eq_def, heq]
      dsimp only
      rw [dif_pos h]
      simp only [List.length_cons]
      have hr := h.2
      simp only [ElevenLabs.MAX_RETRIES] at hr ih ⊢
      cases f <;> simp at ih ⊢ <;> omega
    · intro f r i d e heq h
      rw [ElevenLabs.textToSpeech.eq_def, heq]
      dsimp only
      rw [dif_neg h]
      simp only [List.length_cons, List.length_nil]
      split_ifs <;> omega
  · intro env e hnet henv
    have h0 := henv 0 (by norm_num)
    have h1 := henv 1 (by norm_num)
    have h2 := henv 2 (by norm_num)
    have h3 := henv 3 (by norm_num)
    simp [ElevenLabs.textToSpeech, h0, h1, h2, h3, hnet,
      ElevenLabs.MAX_RETRIES, ElevenLabs.RETRY_DELAY_MS]
  · intro env h0 h1
    simp [ElevenLabs.textToSpeech, h0, h1]

namespace Gemini

theorem mapGet_mapSet (m : JsMap) (k : String) (v : SignalAnalysis) (q : String) :
    mapGet (mapSet m k v) q = if k = q then some v else mapGet m q := by
  induction m with
  | nil => simp [mapSet, mapGet]
  | cons p rest ih =>
    obtain ⟨pk, pv⟩ := p
    by_cases h : pk = k
    · subst h
      by_cases h2 : pk = q <;> simp [mapSet, mapGet, h2]
    · have h' : ¬ k = pk := fun hq => h hq.symm
      by_cases h2 : pk = q
      · subst h2
        simp [mapSet, mapGet, h, h', ih]
      · simp [mapSet, mapGet, h, h2, ih]

theorem mapKeys_mapSet (m : JsMap) (k : String) (v : SignalAnalysis) :
    mapKeys (mapSet m k v) =
      if k ∈ mapKeys m then mapKeys m else mapKeys m ++ [k] := by
  induction m with
  | nil => simp [mapSet, mapKeys]
  | cons p rest ih =>
    obtain ⟨pk, pv⟩ := p
    by_cases h : pk = k
    · subst h
      simp [mapSet, mapKeys]
    · have h' : ¬ k = pk := fun hq => h hq.symm
      simp only [mapSet, if_neg h, mapKeys, List.map_cons] at ih ⊢
      rw [ih]
      have hiff : (k ∈ pk :: rest.map Prod.fst) ↔ (k ∈ rest.map Prod.fst) := by
        simp [List.mem_cons, h']
      by_cases h2 : k ∈ rest.map Prod.fst <;> simp [h2, hiff]

theorem nodup_mapKeys_mapSet (m : JsMap) (k : String) (v : SignalAnalysis)
    (h : (mapKeys m).Nodup) : (mapKeys (mapSet m k v)).Nodup := by
  rw [mapKeys_mapSet]
  split_ifs with hmem
  · exact h
  · simp [List.nodup_append, h, hmem]

theorem mem_mapKeys_mapSet (m : JsMap) (k : String) (v : SignalAnalysis)
    (q : String) :
    q ∈ mapKeys (mapSet m k v) ↔ q ∈ mapKeys m ∨ q = k := by
  rw [mapKeys_mapSet]
  split_ifs with hmem
  · constructor
    · exact Or.inl
    · rintro (h | rfl)
      · exact h
      · exact hmem
  · simp

theorem length_mapSet (m : JsMap) (k : String) (v : SignalAnalysis) :
    (mapSet m k v).length =
      if k ∈ mapKeys m then m.length else m.length + 1 := by
  have h1 : (mapSet m k v).length = (mapKeys (mapSet m k v)).length :=
    (List.length_map _ _).symm
  have h2 : m.length = (mapKeys m).length := (List.length_map _ _).symm
  rw [h1, mapKeys_mapSet]
  split_ifs <;> simp [h2]

theorem mapGet_isSome_iff (m : JsMap) (k : String) :
    (mapGet m k).isSome = true ↔ k ∈ mapKeys m := by
  induction m with
  | nil => simp [mapGet, mapKeys]
  | cons p rest ih =>
    obtain ⟨pk, pv⟩ := p
    by_cases h : pk = k
    · simp [mapGet, mapKeys, h, ih]
    · have h' : ¬ k = pk := fun hq => h hq.symm
      simp [mapGet, mapKeys, h, h', ih]

theorem mapSetList_append (m : JsMap) (a b : List (String × SignalAnalysis)) :
    mapSetList m (a ++ b) = mapSetList (mapSetList m a) b :=
  List.foldl_append _ _ _ _

theorem mem_mapKeys_mapSetList (ps : List (String × SignalAnalysis)) :
    ∀ (m : JsMap) (k : String),
      k ∈ mapKeys (mapSetList m ps) ↔ k ∈ mapKeys m ∨ k ∈ ps.map Prod.fst := by
  induction ps with
  | nil => intro m k; simp [mapSetList]
  | cons p rest ih =>
    intro m k
    simp only [mapSetList, List.foldl_cons] at ih ⊢
    rw [ih (mapSet m p.1 p.2) k, mem_mapKeys_mapSet]
    simp [List.mem_cons]
    tauto

theorem nodup_mapKeys_mapSetList (ps : List (String × SignalAnalysis)) :
    ∀ m : JsMap, (mapKeys m).Nodup → (mapKeys (mapSetList m ps)).Nodup := by
  induction ps with
  | nil => intro m h; exact h
  | cons p rest ih =>
    intro m h
    exact ih (mapSet m p.1 p.2) (nodup_mapKeys_mapSet m p.1 p.2 h)

theorem mapGet_mapSetList (ps : List (String × SignalAnalysis)) :
    ∀ (m : JsMap) (k : String),
      mapGet (mapSetList m ps) k =
        match lastVal ps k with
        | some v => some v
        | none => mapGet m k := by
  induction ps with
  | nil => intro m k; rfl
  | cons p rest ih =>
    intro m k
    simp only [mapSetList, List.foldl_cons] at ih ⊢
    rw [ih (mapSet m p.1 p.2) k]
    cases hl : lastVal rest k with
    | some v => simp [lastVal, hl]
    | none =>
      simp only [lastVal, hl, mapGet_mapSet]
      by_cases h : p.1 = k <;> simp [h]

theorem lastVal_eq_none (ps : List (String × SignalAnalysis)) (k : String)
    (h : k ∉ ps.map Prod.fst) : lastVal ps k = none := by
  induction ps with
  | nil => rfl
  | cons p rest ih =>
    simp only [List.map_cons, List.mem_cons] at h
    push_neg at h
    have h' : ¬ p.1 = k := fun hq => h.1 hq.symm
    rw [lastVal, ih h.2]
    simp [h']

theorem lastVal_of_nodup (ps : List (String × SignalAnalysis)) :
    ∀ (j : ℕ) (k : String) (v : SignalAnalysis),
      (ps.map Prod.fst).Nodup → ps[j]? = some (k, v) → lastVal ps k = some v := by
  induction ps with
  | nil => intro j k v _ h; simp at h
  | cons p rest ih =>
    intro j k v hnd hj
    simp only [List.map_cons, List.nodup_cons] at hnd
    cases j with
    | zero =>
      simp only [List.getElem?_cons_zero] at hj
      cases hj
      rw [lastVal, lastVal_eq_none rest k hnd.1]
      simp
    | succ j =>
      simp only [List.getElem?_cons_succ] at hj
      rw [lastVal, ih j k v hnd.2 hj]

theorem chunkAssignments_keys (res : Option (List SignalAnalysis))
    (batch : List RawSignal) :
    (chunkAssignments res batch).map Prod.fst = batch.map RawSignal.id := by
  cases res with
  | none => simp [chunkAssignments, List.map_map]
  | some analyses =>
    simp only [chunkAssignments, List.map_map]
    have : (Prod.fst ∘ fun p : ℕ × RawSignal =>
        (p.2.id, (analyses[p.1]?).getD (createFallbackAnalysis p.2))) =
        RawSignal.id ∘ Prod.snd := rfl
    rw [this, ← List.map_map, List.enum_map_snd]

theorem processChunk_eq (res : Option (List SignalAnalysis))
    (batch : List RawSignal) (acc : JsMap) :
    processChunk res batch acc = mapSetList acc (chunkAssignments res batch) := by
  cases res with
  | none => simp [processChunk, chunkAssignments, mapSetList, List.foldl_map]
  | some analyses => simp [processChunk, chunkAssignments, mapSetList, List.foldl_map]

theorem batchLoop_eq_mapSetList (oracle : ChunkOracle) :
    ∀ (n : ℕ) (rest : List RawSignal), rest.length ≤ n →
      ∀ (c : ℕ) (acc : JsMap),
        batchLoop oracle c rest acc = mapSetList acc (flatLoop oracle c rest) := by
  intro n
  induction n with
  | zero =>
    intro rest h c acc
    rw [List.length_eq_zero.mp (Nat.le_zero.mp h)]
    simp [batchLoop, flatLoop, mapSetList]
  | succ n ih =>
    intro rest h c acc
    cases rest with
    | nil => simp [batchLoop, flatLoop, mapSetList]
    | cons s rest' =>
      rw [batchLoop, flatLoop]
      rw [ih ((s :: rest').drop BATCH_SIZE)
        (by simp only [List.length_drop, List.length_cons, BATCH_SIZE] at h ⊢; omega)
        (c + 1)]
      rw [processChunk_eq, mapSetList_append]

theorem flatLoop_keys (oracle : ChunkOracle) :
    ∀ (n : ℕ) (rest : List RawSignal), rest.length ≤ n → ∀ c : ℕ,
      (flatLoop oracle c rest).map Prod.fst = rest.map RawSignal.id := by
  intro n
  induction n with
  | zero =>
    intro rest h c
    rw [List.length_eq_zero.mp (Nat.le_zero.mp h)]
    simp [flatLoop]
  | succ n ih =>
    intro rest h c
    cases rest with
    | nil => simp [flatLoop]
    | cons s rest' =>
      rw [flatLoop, List.map_append, chunkAssignments_keys,
        ih ((s :: rest').drop BATCH_SIZE)
          (by simp only [List.length_drop, List.length_cons, BATCH_SIZE] at h ⊢; omega)
          (c + 1),
        ← List.map_append, List.take_append_drop]

theorem flatLoop_getElem (oracle : ChunkOracle) :
    ∀ (n : ℕ) (rest : List RawSignal), rest.length ≤ n →
      ∀ (c j : ℕ) (s : RawSignal), rest[j]? = some s →
        (flatLoop oracle c rest)[j]? =
          some (s.id,
            match oracle (c + j / BATCH_SIZE) with
            | none => createFallbackAnalysis s
            | some analyses =>
                (analyses[j % BATCH_SIZE]?).getD (createFallbackAnalysis s)) := by
  intro n
  induction n with
  | zero =>
    intro rest h c j s hj
    rw [List.length_eq_zero.mp (Nat.le_zero.mp h)] at hj
    simp at hj
  | succ n ih =>
    intro rest h c j s hj
    have hjlen : j < rest.length := (List.getElem?_eq_some.mp hj).1
    cases rest with
    | nil => simp at hj
    | cons hd rest' =>
      rw [flatLoop]
      by_cases hcase : j < BATCH_SIZE
      · have hlen : j < (chunkAssignments (oracle c)
            ((hd :: rest').take BATCH_SIZE)).length := by
          have : ((hd :: rest').take BATCH_SIZE).length =
              min BATCH_SIZE (hd :: rest').length := List.length_take _ _
          have hk : (chunkAssignments (oracle c)
              ((hd :: rest').take BATCH_SIZE)).length =
              ((hd :: rest').take BATCH_SIZE).length := by
            have := chunkAssignments_keys (oracle c) ((hd :: rest').take BATCH_SIZE)
            calc (chunkAssignments (oracle c) ((hd :: rest').take BATCH_SIZE)).length
                = ((chunkAssignments (oracle c)
                    ((hd :: rest').take BATCH_SIZE)).map Prod.fst).length :=
                  (List.length_map _ _).symm
              _ = (((hd :: rest').take BATCH_SIZE).map RawSignal.id).length := by
                  rw [this]
              _ = ((hd :: rest').take BATCH_SIZE).length := List.length_map _ _
          omega
        rw [List.getElem?_append, if_pos hlen]
        have htake : ((hd :: rest').take BATCH_SIZE)[j]? = some s := by
          rw [List.getElem?_take, if_pos hcase]
          exact hj
        have hdiv : j / BATCH_SIZE = 0 := Nat.div_eq_of_lt hcase
        have hmod : j % BATCH_SIZE = j := Nat.mod_eq_of_lt hcase
        cases hres : oracle c with
        | none =>
          simp only [chunkAssignments, List.getElem?_map, htake]
          rw [hdiv, Nat.add_zero, hres]
          rfl
        | some analyses =>
          simp only [chunkAssignments, List.getElem?_map]
          have henum : ((hd :: rest').take BATCH_SIZE).enum[j]? =
              some (j, s) := by
            rw [List.getElem?_enum, htake]
            rfl
          rw [henum, hdiv, Nat.add_zero, hres, hmod]
          rfl
      · push_neg at hcase
        have hlenchunk : (chunkAssignments (oracle c)
            ((hd :: rest').take BATCH_SIZE)).length = BATCH_SIZE := by
          have hk := chunkAssignments_keys (oracle c) ((hd :: rest').take BATCH_SIZE)
          have h1 : (chunkAssignments (oracle c)
              ((hd :: rest').take BATCH_SIZE)).length =
              ((hd :: rest').take BATCH_SIZE).length := by
            calc (chunkAssignments (oracle c) ((hd :: rest').take BATCH_SIZE)).length
                = ((chunkAssignments (oracle c)
                    ((hd :: rest').take BATCH_SIZE)).map Prod.fst).length :=
                  (List.length_map _ _).symm
              _ = (((hd :: rest').take BATCH_SIZE).map RawSignal.id).length := by
                  rw [hk]
              _ = ((hd :: rest').take BATCH_SIZE).length := List.length_map _ _
          rw [h1, List.length_take]
          simp only [List.length_cons, BATCH_SIZE] at hcase hjlen ⊢
          omega
        rw [List.getElem?_append_right (by rw [hlenchunk]; exact hcase), hlenchunk]
        have hdrop : ((hd :: rest').drop BATCH_SIZE)[j - BATCH_SIZE]? = some s := by
          rw [List.getElem?_drop]
          rw [show BATCH_SIZE + (j - BATCH_SIZE) = j by omega]
          exact hj
        rw [ih ((hd :: rest').drop BATCH_SIZE)
          (by simp only [List.length_drop, List.length_cons, BATCH_SIZE] at h ⊢; omega)
          (c + 1) (j - BATCH_SIZE) s hdrop]
        have harith : c + 1 + (j - BATCH_SIZE) / BATCH_SIZE = c + j / BATCH_SIZE := by
          simp only [BATCH_SIZE] at hcase ⊢
          omega
        have hmod2 : (j - BATCH_SIZE) % BATCH_SIZE = j % BATCH_SIZE := by
          simp only [BATCH_SIZE] at hcase ⊢
          omega
        rw [harith, hmod2]

end Gemini

/-- C10: `analyzeBatchSignals` keys its result by signal id: for every
oracle and every input list, the keys of the returned map are exactly the
distinct input ids (one entry per distinct id, so duplicated ids collapse
and the entry count is the number of distinct ids, not the number of
signals), and the value stored at an id is the one written by the last
input occurrence of that id. -/
theorem analyzeBatchSignals_distinct_keys :
    ∀ (oracle : Gemini.ChunkOracle) (signals : List Gemini.RawSignal),
      (Gemini.mapKeys (Gemini.analyzeBatchSignals oracle signals)).Nodup
      ∧ (∀ k, k ∈ Gemini.mapKeys (Gemini.analyzeBatchSignals oracle signals) ↔
          k ∈ signals.map Gemini.RawSignal.id)
      ∧ (Gemini.analyzeBatchSignals oracle signals).length =
          (signals.map Gemini.RawSignal.id).dedup.length
      ∧ (∀ k, Gemini.mapGet (Gemini.analyzeBatchSignals oracle signals) k =
          Gemini.lastVal (Gemini.assignments oracle signals) k)
      ∧ (Gemini.assignments oracle signals).map Prod.fst =
          signals.map Gemini.RawSignal.id := by
  intro oracle signals
  have hflat : Gemini.analyzeBatchSignals oracle signals =
      Gemini.mapSetList [] (Gemini.assignments oracle signals) :=
    Gemini.batchLoop_eq_mapSetList oracle signals.length signals le_rfl 0 []
  have hkeys : (Gemini.assignments oracle signals).map Prod.fst =
      signals.map Gemini.RawSignal.id :=
    Gemini.flatLoop_keys oracle signals.length signals le_rfl 0
  have hnodup : (Gemini.mapKeys (Gemini.analyzeBatchSignals oracle signals)).Nodup := by
    rw [hflat]
    exact Gemini.nodup_mapKeys_mapSetList _ [] (by simp [Gemini.mapKeys])
  have hmem : ∀ k, k ∈ Gemini.mapKeys (Gemini.analyzeBatchSignals oracle signals) ↔
      k ∈ signals.map Gemini.RawSignal.id := by
    intro k
    rw [hflat, Gemini.mem_mapKeys_mapSetList, hkeys]
    simp [Gemini.mapKeys]
  refine ⟨hnodup, hmem, ?_, ?_, hkeys⟩
  · have hperm : List.Perm
        (Gemini.mapKeys (Gemini.analyzeBatchSignals oracle signals))
        ((signals.map Gemini.RawSignal.id).dedup) := by
      rw [List.perm_ext_iff_of_nodup hnodup (List.nodup_dedup _)]
      intro a
      rw [hmem a, List.mem_dedup]
    calc (Gemini.analyzeBatchSignals oracle signals).length
        = (Gemini.mapKeys (Gemini.analyzeBatchSignals oracle signals)).length :=
          (List.length_map _ _).symm
      _ = (signals.map Gemini.RawSignal.id).dedup.length := hperm.length_eq
  · intro k
    rw [hflat, Gemini.mapGet_mapSetList]
    cases hl : Gemini.lastVal (Gemini.assignments oracle signals) k <;> rfl

/-- C1 counterexample: two raw signals sharing the id "dup" (with the
upstream call failing) produce a map with a single entry, not two — so
"exactly N entries for N input signals" fails for duplicate ids. -/
theorem analyzeBatchSignals_total_counterexample :
    ([(⟨"dup", "twitter", "first", 0⟩ : Gemini.RawSignal),
      ⟨"dup", "twitter", "second", 1⟩] : List Gemini.RawSignal).length = 2
    ∧ (Gemini.analyzeBatchSignals (fun _ => none)
        [⟨"dup", "twitter", "first", 0⟩, ⟨"dup", "twitter", "second", 1⟩]).length
        = 1 := by
  refine ⟨rfl, ?_⟩
  rw [Gemini.analyzeBatchSignals, Gemini.batchLoop]
  rw [show (([⟨"dup", "twitter", "first", 0⟩, ⟨"dup", "twitter", "second", 1⟩] :
      List Gemini.RawSignal).drop Gemini.BATCH_SIZE) = [] from rfl]
  rw [Gemini.batchLoop]
  rfl

/-- C1 amended: when the input ids are pairwise distinct,
`analyzeBatchSignals` returns a total mapping with exactly N entries for N
input signals, one per requested id, and any position whose chunk request
failed — or whose chunk returned an array too short to cover it — receives
exactly the deterministic fallback analysis; the call itself never fails. -/
theorem analyzeBatchSignals_total :
    ∀ (oracle : Gemini.ChunkOracle) (signals : List Gemini.RawSignal),
      (signals.map Gemini.RawSignal.id).Nodup →
      (Gemini.analyzeBatchSignals oracle signals).length = signals.length
      ∧ (∀ s ∈ signals,
          (Gemini.mapGet (Gemini.analyzeBatchSignals oracle signals) s.id).isSome
            = true)
      ∧ (∀ (j : ℕ) (s : Gemini.RawSignal), signals[j]? = some s →
          (oracle (j / Gemini.BATCH_SIZE) = none
            ∨ ∃ analyses, oracle (j / Gemini.BATCH_SIZE) = some analyses
                ∧ analyses.length ≤ j % Gemini.BATCH_SIZE) →
          Gemini.mapGet (Gemini.analyzeBatchSignals oracle signals) s.id =
            some (Gemini.createFallbackAnalysis s)) := by
  intro oracle signals hnd
  have hflat : Gemini.analyzeBatchSignals oracle signals =
      Gemini.mapSetList [] (Gemini.assignments oracle signals) :=
    Gemini.batchLoop_eq_mapSetList oracle signals.length signals le_rfl 0 []
  have hkeys : (Gemini.assignments oracle signals).map Prod.fst =
      signals.map Gemini.RawSignal.id :=
    Gemini.flatLoop_keys oracle signals.length signals le_rfl 0
  have hnodup : (Gemini.mapKeys (Gemini.analyzeBatchSignals oracle signals)).Nodup := by
    rw [hflat]
    exact Gemini.nodup_mapKeys_mapSetList _ [] (by simp [Gemini.mapKeys])
  have hmem : ∀ k, k ∈ Gemini.mapKeys (Gemini.analyzeBatchSignals oracle signals) ↔
      k ∈ signals.map Gemini.RawSignal.id := by
    intro k
    rw [hflat, Gemini.mem_mapKeys_mapSetList, hkeys]
    simp [Gemini.mapKeys]
  refine ⟨?_, ?_, ?_⟩
  · have hperm : List.Perm
        (Gemini.mapKeys (Gemini.analyzeBatchSignals oracle signals))
        (signals.map Gemini.RawSignal.id) := by
      rw [List.perm_ext_iff_of_nodup hnodup hnd]
      exact hmem
    calc (Gemini.analyzeBatchSignals oracle signals).length
        = (Gemini.mapKeys (Gemini.analyzeBatchSignals oracle signals)).length :=
          (List.length_map _ _).symm
      _ = (signals.map Gemini.RawSignal.id).length := hperm.length_eq
      _ = signals.length := List.length_map _ _
  · intro s hs
    rw [Gemini.mapGet_isSome_iff, hmem]
    exact List.mem_map_of_mem _ hs
  · intro j s hj hfail
    have hassign : (Gemini.assignments oracle signals)[j]? =
        some (s.id, Gemini.createFallbackAnalysis s) := by
      have := Gemini.flatLoop_getElem oracle signals.length signals le_rfl 0 j s hj
      rw [Nat.zero_add] at this
      rcases hfail with hnone | ⟨analyses, hsome, hshort⟩
      · rw [hnone] at this
        exact this
      · rw [hsome] at this
        have hshortn : analyses[j % Gemini.BATCH_SIZE]? = none :=
          List.getElem?_eq_none hshort
        simp only [hshortn, Option.getD_none] at this
        exact this
    have hndk : ((Gemini.assignments oracle signals).map Prod.fst).Nodup := by
      rw [hkeys]
      exact hnd
    rw [hflat, Gemini.mapGet_mapSetList,
      Gemini.lastVal_of_nodup _ j s.id (Gemini.createFallbackAnalysis s) hndk hassign]

/-- Witness for C1 amended: two signals with distinct ids and an oracle
that always fails; the Nodup hypothesis is discharged by `decide`. -/
theorem analyzeBatchSignals_total_witness :
    (Gemini.analyzeBatchSignals (fun _ => none)
      [⟨"a", "twitter", "hello", 0⟩, ⟨"b", "reddit", "world", 1⟩]).length =
      ([(⟨"a", "twitter", "hello", 0⟩ : Gemini.RawSignal),
        ⟨"b", "reddit", "world", 1⟩] : List Gemini.RawSignal).length :=
  (analyzeBatchSignals_total (fun _ => none)
    [⟨"a", "twitter", "hello", 0⟩, ⟨"b", "reddit", "world", 1⟩] (by decide)).1

/-- Witness for C4: the retry path instantiated at an oracle that always
throws a classified network error. -/
theorem textToSpeech_retry_policy_witness :
    ElevenLabs.textToSpeech
      (fun _ => .exn ⟨"TypeError: fetch failed", "Error"⟩) true 0 0 0 =
      ⟨[(ElevenLabs.MODEL_FLASH, 0), (ElevenLabs.MODEL_FLASH, 1000),
        (ElevenLabs.MODEL_FLASH, 2000), (ElevenLabs.MODEL_FLASH, 3000)],
        .error ⟨"TypeError: fetch failed", "Error"⟩⟩ :=
  textToSpeech_retry_policy.2.1
    (fun _ => .exn ⟨"TypeError: fetch failed", "Error"⟩)
    ⟨"TypeError: fetch failed", "Error"⟩ (by decide) (fun i _ => rfl)

end AttentionIndex
